import Mathlib

/-!
Shallow embedding of the agent-execution backend (src/backend/main.py and
src/backend/game_client.py) of the RomanSlack/hack_princeton_F25 repository.

Conventions of the embedding:
* Python strings are Lean `String`; Python `None`-able strings are `Option String`.
  Python truthiness of an optional string (`if block.next:`) is the `truthy`
  function below: `none` and the empty string are both falsy.
* JSON values appearing as tool parameters are modelled by `JVal` (numbers as
  integers, strings); a Python dict of parameters is an association list in
  insertion order, looked up with `List.lookup` and updated with `setParam`
  (replace-in-place, append when absent), matching dict assignment.
* The LLM provider is external: a step takes as input the provider raw output
  string together with the result of markdown-stripping + `json.loads` on it
  (`LLMResult.parsed = none` models a `json.JSONDecodeError`).  `json.loads`
  and the regex stripping themselves are library calls outside the repository.
* Python exceptions that escape a function are the `Except.error` branch;
  the global `agents` dict is threaded explicitly, and `next_step_for_agents`
  returns the mutated state in every branch, as the real global dict keeps
  mutations performed before an exception is raised.
-/

/-- JSON-ish parameter value: numbers (modelled as integers) or strings. -/
inductive JVal where
  | num (n : Int)
  | str (s : String)
  deriving Repr, DecidableEq

/-- A Python dict of tool parameters, in insertion order. -/
abbrev Params := List (String × JVal)

/-- Python dict assignment `d[k] = v`: replace the value at an existing key in
place, append a fresh binding otherwise. -/
def setParam : Params → String → JVal → Params
  | [], k, v => [(k, v)]
  | (k₁, v₁) :: t, k, v =>
      if k₁ == k then (k, v) :: t else (k₁, v₁) :: setParam t k v

/-- Python truthiness of an optional string: `None` and `""` are falsy. -/
def truthy : Option String → Bool
  | none => false
  | some s => !s.data.isEmpty

/-- Python `str.lower`, character-wise (inputs here are ASCII). -/
def pyLower (s : String) : String :=
  ⟨s.data.map Char.toLower⟩

/-- Python `str.strip`: drop whitespace from both ends. -/
def pyStrip (s : String) : String :=
  ⟨((s.data.dropWhile Char.isWhitespace).reverse.dropWhile Char.isWhitespace).reverse⟩

/-- Python `str.capitalize`: first character upper-cased, rest lower-cased. -/
def pyCapitalize (s : String) : String :=
  ⟨(s.data.take 1).map Char.toUpper ++ (s.data.drop 1).map Char.toLower⟩

/-- `ToolConnection` from main.py: an edge from an agent block to a tool
block, labelled with the tool name. -/
structure ToolConnection where
  tool_id : String
  tool_name : String
  deriving Repr, DecidableEq

/-- `ActionBlock` (entry block) from main.py. -/
structure ActionBlock where
  id : String
  action_type : String
  next : Option String
  deriving Repr, DecidableEq

/-- `AgentBlock` (decision block) from main.py. -/
structure AgentBlock where
  id : String
  model : String
  system_prompt : String
  user_prompt : String
  tool_connections : List ToolConnection
  deriving Repr, DecidableEq

/-- `ToolBlock` from main.py. -/
structure ToolBlock where
  id : String
  tool_type : String
  parameters : List (String × String)
  next : Option String
  deriving Repr, DecidableEq

/-- The discriminated union `Block = Union[ActionBlock, AgentBlock, ToolBlock]`. -/
inductive Block where
  | action (b : ActionBlock)
  | agent (b : AgentBlock)
  | tool (b : ToolBlock)
  deriving Repr, DecidableEq

/-- `block.id`, defined for every block variant. -/
def Block.id : Block → String
  | .action b => b.id
  | .agent b => b.id
  | .tool b => b.id

/-- `block.next`: action and tool blocks carry a successor field, agent blocks
do not (accessing it raises `AttributeError` in Python, hence `none`). -/
def Block.nextAttr : Block → Option (Option String)
  | .action b => some b.next
  | .tool b => some b.next
  | .agent _ => none

/-- `ProgramSchema` from main.py. -/
structure ProgramSchema where
  agent_id : String
  blocks : List Block
  deriving Repr, DecidableEq

/-- One record of `AgentState.past_actions`. -/
structure ActionRecord where
  action : String
  parameters : Params
  reasoning : String
  deriving Repr, DecidableEq

/-- `AgentState` from main.py: the per-agent run state. -/
structure AgentState where
  agent_id : String
  program : ProgramSchema
  current_node : Option String := none
  current_plan : Option JVal := none
  last_agent_block : Option String := none
  last_executed_tool_block : Option String := none
  past_actions : List ActionRecord := []
  deriving Repr, DecidableEq

/-- `ToolAction` from main.py: the action returned to the caller. -/
structure ToolAction where
  tool_type : String
  parameters : Params
  deriving Repr, DecidableEq

/-- `NextStepResponse` from main.py. -/
structure NextStepResponse where
  agent_id : String
  action : Option ToolAction
  current_node : Option String
  deriving Repr, DecidableEq

/-- The JSON object parsed out of the provider output (fields of interest of
`response_json`): `reasoning`, `action`, `parameters`, each possibly absent. -/
structure ParsedResponse where
  reasoning : Option String
  action : Option String
  parameters : Option Params
  deriving Repr, DecidableEq

/-- The provider call outcome handed to the parsing code: the raw
`final_output` text plus the result of markdown-stripping and `json.loads`
over it (`none` models a `json.JSONDecodeError`). -/
structure LLMResult where
  raw : String
  parsed : Option ParsedResponse
  deriving Repr, DecidableEq

/-- `MAX_ACTION_HISTORY = 5` from main.py. -/
def MAX_ACTION_HISTORY : Nat := 5

-- ===========================================================================
-- Program validation (ProgramSchema.validate_blocks and
-- AgentBlock.validate_tool_connections)
-- ===========================================================================

/-- Whether a block is an entry block of the given action type. -/
def isActionOfType (atype : String) : Block → Bool
  | .action a => a.action_type == atype
  | _ => false

/-- The reference check of `validate_blocks` for one block: a truthy `next`
must name an existing id; every tool connection must name an existing id. -/
def refsValid (ids : List String) : Block → Bool
  | .action a => !truthy a.next || ids.contains (a.next.getD "")
  | .tool t => !truthy t.next || ids.contains (t.next.getD "")
  | .agent a => a.tool_connections.all fun c => ids.contains c.tool_id

/-- `AgentBlock.validate_tool_connections` applied to one block: an agent
block with an empty tool-connection list is rejected at construction. -/
def agentConnsNonempty : Block → Bool
  | .agent a => !a.tool_connections.isEmpty
  | _ => true

/-- Program validation: the pydantic per-block validator
`AgentBlock.validate_tool_connections` followed by
`ProgramSchema.validate_blocks` (empty set, missing onStart, duplicate ids,
dangling references).  All-or-nothing: any defect yields an error. -/
def validate_blocks (blocks : List Block) : Except String Unit :=
  if !blocks.all agentConnsNonempty then
    .error "Agent block must have at least one tool connection"
  else if blocks.isEmpty then
    .error "Program must have at least one block"
  else if !blocks.any (isActionOfType "onStart") then
    .error "Program must have at least one onStart action block"
  else if !(decide (blocks.map Block.id).Nodup) then
    .error "All block IDs must be unique"
  else if !blocks.all (refsValid (blocks.map Block.id)) then
    .error "Block references non-existent block"
  else
    .ok ()

-- ===========================================================================
-- Decision parsing, clamping, fallback and MCP selection
-- (execute_agent_block, lines 434-616 of main.py)
-- ===========================================================================

/-- `available_tools = [conn.tool_name for conn in agent_block.tool_connections]`. -/
def available_tools (ab : AgentBlock) : List String :=
  ab.tool_connections.map (·.tool_name)

/-- The MCP server list built for a decision block (lines 541-546):
the plan server when a plan binding is offered, the search server when a
search binding is offered, nothing else. -/
def mcp_servers (availableTools : List String) : List String :=
  (if availableTools.contains "plan" then ["raptors65/hack-princeton-mcp"] else [])
    ++ (if availableTools.contains "search" then ["tsion/brave-search-mcp"] else [])

/-- `max(-max_move, min(max_move, v))` for a numeric value; a non-numeric
value raises a `TypeError` in Python (uncaught there). -/
def clampVal : JVal → Except String JVal
  | .num n => .ok (.num (max (-25) (min 25 n)))
  | .str _ => .error "TypeError: str and int are not comparable"

/-- One `if k in parameters: parameters[k] = max(-25, min(25, parameters[k]))`
block of the movement clamping. -/
def clampKey (ps : Params) (k : String) : Except String Params :=
  match ps.lookup k with
  | some v => do
      let c ← clampVal v
      pure (setParam ps k c)
  | none => pure ps

/-- Movement clamping (lines 585-596): clamp the x entry, then the y entry,
each only when present. -/
def clampMove (ps : Params) : Except String Params := do
  let ps₁ ← clampKey ps "x"
  clampKey ps₁ "y"

/-- The try/except parsing stage (lines 568-605): on a successful JSON parse,
read reasoning / action / parameters with their defaults, lower-case the
action, and clamp movement parameters when the action is "move" and the
parameter dict is non-empty; on a `JSONDecodeError`, fall back to the
stripped lower-cased raw text with empty parameters. -/
def parseOk (obj : ParsedResponse) : Except String (String × Params × String) :=
  let reasoning := obj.reasoning.getD "No reasoning provided"
  let toolChoice := pyLower (obj.action.getD "")
  let params := obj.parameters.getD []
  if toolChoice == "move" && !params.isEmpty then
    (clampMove params).map fun cps => (toolChoice, cps, reasoning)
  else
    .ok (toolChoice, params, reasoning)

def parseStage (llm : LLMResult) : Except String (String × Params × String) :=
  match llm.parsed with
  | some obj => parseOk obj
  | none =>
      .ok (pyLower (pyStrip llm.raw), [], "Failed to parse response")

/-- The validation stage (lines 607-612): a choice outside the offered tool
names is replaced by the first offered tool name with empty parameters
(`available_tools[0]` raises `IndexError` on an empty list). -/
def validateChoice (availableTools : List String) :
    String × Params × String → Except String (String × Params × String)
  | (toolChoice, params, reasoning) =>
      if availableTools.contains toolChoice then
        .ok (toolChoice, params, reasoning)
      else
        match availableTools with
        | [] => .error "IndexError: list index out of range"
        | t :: _ => .ok (t, [], reasoning)

/-- The pure decision kernel of `execute_agent_block`: parse the provider
output, clamp, and validate the tool choice against the offered tools.
Returns `(tool_name, parameters, reasoning)`. -/
def select_tool (availableTools : List String) (llm : LLMResult) :
    Except String (String × Params × String) := do
  let r ← parseStage llm
  validateChoice availableTools r

/-- `execute_agent_block` restricted to its engine-visible outcome: the
prompt strings only feed the external provider, whose reply is `llm`. -/
def execute_agent_block (ab : AgentBlock) (llm : LLMResult) :
    Except String (String × Params × String) :=
  select_tool (available_tools ab) llm

-- ===========================================================================
-- The per-agent step (next_step_for_agents, lines 1046-1187 of main.py)
-- ===========================================================================

/-- The trigger lookup of `next_step_for_agents` (lines 1070-1081): the first
entry block whose action type is "on" + capitalize(action_occurred). -/
def findTriggerBlock (blocks : List Block) (atype : String) : Option ActionBlock :=
  blocks.findSome? fun b =>
    match b with
    | .action a => if a.action_type == atype then some a else none
    | _ => none

/-- Trigger handling: when a trigger occurred and the matching entry block has
a truthy successor, force the cursor to that successor; otherwise leave the
state untouched. -/
def applyTrigger (st : AgentState) (actionOccurred : Option String) : AgentState :=
  match actionOccurred with
  | none => st
  | some act =>
      if act.isEmpty then st
      else
        match findTriggerBlock st.program.blocks ("on" ++ pyCapitalize act) with
        | some ab => if truthy ab.next then { st with current_node := ab.next } else st
        | none => st

/-- `blocks.find` by id: the first block whose id matches. -/
def findBlock (blocks : List Block) (bid : String) : Option Block :=
  blocks.find? fun b => b.id == bid

/-- Bounded history append (lines 1156-1166): append the record, then keep
only the most recent `MAX_ACTION_HISTORY` records. -/
def record_action (hist : List ActionRecord) (r : ActionRecord) : List ActionRecord :=
  let h := hist ++ [r]
  if h.length > MAX_ACTION_HISTORY then h.drop (h.length - MAX_ACTION_HISTORY) else h

/-- The tail of `next_step_for_agents` once a cursor value has been resolved
(lines 1097-1187): resolve the block, require an agent block, record it as
the last agent block, run the decision, resolve the winning tool binding,
store a plan if applicable, append to the bounded history, record the tool
block and advance the cursor to its successor.  The returned state carries
every mutation made before an exception, as the real global dict does. -/
def stepFromNode (st₀ : AgentState) (nodeId : String) (llm : LLMResult) :
    AgentState × Except String NextStepResponse :=
  match findBlock st₀.program.blocks nodeId with
  | none => (st₀, .error "Current node not found in agents program")
  | some (.action _) => (st₀, .error "Current node is not an agent block")
  | some (.tool _) => (st₀, .error "Current node is not an agent block")
  | some (.agent ab) =>
      let st₁ := { st₀ with last_agent_block := some ab.id }
      match execute_agent_block ab llm with
      | .error e => (st₁, .error e)
      | .ok (toolChoice, params, reasoning) =>
          match ab.tool_connections.find? (fun c => c.tool_name == toolChoice) with
          | none => (st₁, .error "Tool block for chosen tool not found")
          | some conn =>
              match findBlock st₁.program.blocks conn.tool_id with
              | none => (st₁, .error "Tool block for chosen tool not found")
              | some tb =>
                  let st₂ :=
                    if toolChoice == "plan" && (params.lookup "plan").isSome then
                      { st₁ with current_plan := params.lookup "plan" }
                    else st₁
                  let st₃ := { st₂ with
                    past_actions := record_action st₂.past_actions
                      ⟨toolChoice, params, reasoning⟩ }
                  let st₄ := { st₃ with last_executed_tool_block := some tb.id }
                  match tb.nextAttr with
                  | none => (st₄, .error "AttributeError: AgentBlock has no attribute next")
                  | some nxt =>
                      let st₅ := { st₄ with current_node := nxt }
                      (st₅, .ok { agent_id := st₅.agent_id
                                  action := some { tool_type := toolChoice
                                                   parameters := params }
                                  current_node := nxt })

/-- `next_step_for_agents`: trigger handling, then the cursor fallback to the
last agent block, then the resolved step.  A state with neither a truthy
cursor nor a truthy last agent block yields no action and a null cursor. -/
def next_step_for_agents (st₀ : AgentState) (actionOccurred : Option String)
    (llm : LLMResult) : AgentState × Except String NextStepResponse :=
  if truthy (applyTrigger st₀ actionOccurred).current_node then
    stepFromNode (applyTrigger st₀ actionOccurred)
      ((applyTrigger st₀ actionOccurred).current_node.getD "") llm
  else if truthy (applyTrigger st₀ actionOccurred).last_agent_block then
    stepFromNode
      { applyTrigger st₀ actionOccurred with
          current_node := (applyTrigger st₀ actionOccurred).last_agent_block }
      ((applyTrigger st₀ actionOccurred).last_agent_block.getD "") llm
  else
    (applyTrigger st₀ actionOccurred,
     .ok { agent_id := (applyTrigger st₀ actionOccurred).agent_id, action := none
           current_node := none })

-- ===========================================================================
-- The batch tick (process_single_agent_step and execute_game_step,
-- lines 765-887 of main.py) and the auto-step loop (lines 1019-1043)
-- ===========================================================================

/-- The per-agent entry of a tick report: an applied action, an explicit
no-action, or an error attributed to the agent. -/
inductive StepResult where
  | acted (action : String) (parameters : Params) (next_node : Option String)
  | noAction (next_node : Option String)
  | err (msg : String)
  deriving Repr, DecidableEq

/-- The process-wide `agents` dict, keyed by agent id. -/
abbrev AgentsMap := List (String × AgentState)

/-- `process_single_agent_step`: an agent missing from the batched game-state
map, or from the backend, yields an error entry without running a step;
otherwise the per-agent step runs, its mutations are written back, and any
exception it raises is captured as an error entry for this agent only.
The world-state fetch result is modelled by the list of agent ids for which
a state arrived (`batch_get_states` drops failed fetches); the game-state
payload itself only feeds the provider prompt. -/
def process_single_agent_step (agents : AgentsMap) (aid : String)
    (gameStates : List String) (llm : LLMResult) : AgentsMap × StepResult :=
  if !gameStates.contains aid then
    (agents, .err "No game state available")
  else
    match agents.lookup aid with
    | none => (agents, .err "Agent not in backend")
    | some st =>
        let (st₁, r) := next_step_for_agents st none llm
        let agents₁ := agents.map fun p => if p.1 == aid then (aid, st₁) else p
        match r with
        | .ok resp =>
            match resp.action with
            | some act => (agents₁, .acted act.tool_type act.parameters resp.current_node)
            | none => (agents₁, .noAction resp.current_node)
        | .error e => (agents₁, .err e)

/-- `execute_game_step` restricted to the engine:  one
`process_single_agent_step` per registered agent (the concurrent gather is
linearised; each task touches only its own agent entry), collecting one
result entry per agent. -/
def execute_game_step (agents : AgentsMap) (registered : List String)
    (gameStates : List String) (llm : String → LLMResult) :
    AgentsMap × List (String × StepResult) :=
  registered.foldl
    (fun acc aid =>
      let r := process_single_agent_step acc.1 aid gameStates (llm aid)
      (r.1, acc.2 ++ [(aid, r.2)]))
    (agents, [])

/-- One iteration of `auto_step_loop` (lines 1025-1041): given the cadence
interval and the tick outcome (a completed tick reporting its duration, or a
raised exception), return the sleep performed before the next while-test and
whether the loop proceeds to that test (it always does: the except clause
swallows the error). Durations are rationals. -/
def auto_step_iteration (stepDelay : ℚ) (tick : Except String ℚ) : ℚ × Bool :=
  match tick with
  | .ok d =>
      let remaining := stepDelay - d
      (if remaining > 0 then remaining else 0, true)
  | .error _ => (stepDelay, true)

/-- Decidable equality for `Except`, used to evaluate concrete runs. -/
instance exceptDecEq {e a : Type} [DecidableEq e] [DecidableEq a] :
    DecidableEq (Except e a) := fun x y =>
  match x, y with
  | .ok u, .ok v =>
      if h : u = v then isTrue (congrArg Except.ok h)
      else isFalse fun hh => h (Except.ok.inj hh)
  | .error u, .error v =>
      if h : u = v then isTrue (congrArg Except.error h)
      else isFalse fun hh => h (Except.error.inj hh)
  | .ok _, .error _ => isFalse fun hh => Except.noConfusion hh
  | .error _, .ok _ => isFalse fun hh => Except.noConfusion hh

-- ===========================================================================
-- Concrete fixtures (the looping two-tool program of spec section 8)
-- ===========================================================================

/-- Entry block: onStart, wired to the decision block D. -/
def exEntry : Block := .action ⟨"E", "onStart", some "D"⟩

/-- Entry block: onAttacked, with no successor wired. -/
def exEntryDamaged : Block := .action ⟨"E2", "onAttacked", none⟩

/-- Decision block D offering move (to T1) and attack (to T2). -/
def exDecision : Block :=
  .agent ⟨"D", "openai/gpt-4o-mini", "sys", "usr", [⟨"T1", "move"⟩, ⟨"T2", "attack"⟩]⟩

/-- Tool block T1 (move), looping back to D. -/
def exT1 : Block := .tool ⟨"T1", "move", [("x", "number"), ("y", "number")], some "D"⟩

/-- Tool block T2 (attack), looping back to D. -/
def exT2 : Block := .tool ⟨"T2", "attack", [("target_player_id", "string")], some "D"⟩

/-- The looping two-tool program. -/
def exProgram : ProgramSchema :=
  ⟨"agent1", [exEntry, exEntryDamaged, exDecision, exT1, exT2]⟩

/-- Run state positioned at D with no history. -/
def exStateAtD : AgentState :=
  { agent_id := "agent1", program := exProgram, current_node := some "D" }

/-- Run state with an absent cursor whose last decision block was D. -/
def exStateIdle : AgentState :=
  { agent_id := "agent1", program := exProgram, current_node := none
    last_agent_block := some "D" }

/-- A provider reply choosing move(5, -10), parsed successfully. -/
def exLLMMove : LLMResult :=
  ⟨"\x7b\"action\":\"move\"\x7d",
   some ⟨some "Moving toward center", some "move",
         some [("x", .num 5), ("y", .num (-10))]⟩⟩

/-- A provider reply whose JSON names the unoffered tool "fly". -/
def exLLMFly : LLMResult :=
  ⟨"\x7b\"action\":\"fly\"\x7d", some ⟨none, some "fly", none⟩⟩

/-- A provider reply that is not JSON at all but reads "attack". -/
def exLLMAttackText : LLMResult := ⟨"attack", none⟩

/-- A plan-only program: onStart wired to decision block D9 whose single
binding is plan, to tool block T9 with no successor. -/
def exPlanProgram : ProgramSchema :=
  ⟨"agent9", [.action ⟨"E9", "onStart", some "D9"⟩,
              .agent ⟨"D9", "openai/gpt-4o-mini", "sys", "usr", [⟨"T9", "plan"⟩]⟩,
              .tool ⟨"T9", "plan", [("plan", "string")], none⟩]⟩

/-- Run state at D9 holding an existing plan. -/
def exStatePlan : AgentState :=
  { agent_id := "agent9", program := exPlanProgram, current_node := some "D9"
    current_plan := some (.str "old strategy") }

/-- A provider reply choosing plan with an empty parameter object. -/
def exLLMPlanNoParam : LLMResult :=
  ⟨"\x7b\"action\":\"plan\"\x7d", some ⟨some "r", some "plan", some []⟩⟩

/-- A provider reply choosing move with out-of-range coordinates. -/
def exLLMMove999 : LLMResult :=
  ⟨"\x7b\"action\":\"move\"\x7d",
   some ⟨none, some "move", some [("x", .num 999), ("y", .num (-999))]⟩⟩

/-- A provider reply choosing plan with an explicit plan parameter. -/
def exLLMPlanWithParam : LLMResult :=
  ⟨"\x7b\"action\":\"plan\"\x7d",
   some ⟨some "r", some "plan", some [("plan", .str "new plan")]⟩⟩

-- ===========================================================================
-- Spec-level defect predicates (spelled from the spec wording of section 4.1,
-- to be compared with the validation code)
-- ===========================================================================

/-- Spec wording: the program has a decision block with zero tool bindings. -/
def HasEmptyAgentBlock (blocks : List Block) : Prop :=
  ∃ g : AgentBlock, Block.agent g ∈ blocks ∧ g.tool_connections = []

/-- Spec wording: the program has an onStart entry block. -/
def HasOnStartEntry (blocks : List Block) : Prop :=
  ∃ a : ActionBlock, Block.action a ∈ blocks ∧ a.action_type = "onStart"

/-- Spec wording: this block holds a successor or tool-binding reference to a
non-existent block id (an absent or empty successor is no reference, as the
code treats the empty string like None throughout). -/
def BlockRefDefect (ids : List String) : Block → Prop
  | .action a => truthy a.next = true ∧ a.next.getD "" ∉ ids
  | .tool t => truthy t.next = true ∧ t.next.getD "" ∉ ids
  | .agent g => ∃ c ∈ g.tool_connections, c.tool_id ∉ ids

/-- Spec wording: some block of the program holds a dangling reference. -/
def HasDanglingRef (blocks : List Block) : Prop :=
  ∃ b ∈ blocks, BlockRefDefect (blocks.map Block.id) b

-- ===========================================================================
-- Helper lemmas
-- ===========================================================================

theorem exceptBind_ok {e a b : Type} (x : a) (f : a → Except e b) :
    (Except.ok x >>= f : Except e b) = f x := rfl

theorem exceptBind_error {e a b : Type} (err : e) (f : a → Except e b) :
    ((Except.error err : Except e a) >>= f) = Except.error err := rfl

theorem exceptPure_eq {e a : Type} (x : a) : (pure x : Except e a) = Except.ok x := rfl

theorem foldl_record_action_eq (rs : List ActionRecord) :
    List.foldl record_action [] rs = rs.drop (rs.length - MAX_ACTION_HISTORY) := by
  induction rs using List.reverseRecOn with
  | nil => rfl
  | append_singleton l a ih =>
    rw [List.foldl_append, List.foldl_cons, List.foldl_nil, ih]
    simp only [record_action, MAX_ACTION_HISTORY]
    rcases Nat.lt_or_ge l.length 5 with hk | hk
    · have h0 : l.length - 5 = 0 := by omega
      have h1 : (l ++ [a]).length - 5 = 0 := by
        simp only [List.length_append, List.length_singleton]; omega
      have hc : ¬ (l.drop (l.length - 5) ++ [a]).length > 5 := by
        simp only [List.length_append, List.length_singleton, List.length_drop]; omega
      rw [if_neg hc, h0, h1, List.drop_zero, List.drop_zero]
    · have hlen : (l.drop (l.length - 5)).length = 5 := by
        rw [List.length_drop]; omega
      have hcond : (l.drop (l.length - 5) ++ [a]).length > 5 := by
        simp only [List.length_append, List.length_singleton, hlen]; omega
      rw [if_pos hcond]
      have h2 : (l.drop (l.length - 5) ++ [a]).length - 5 = 1 := by
        simp only [List.length_append, List.length_singleton, hlen]
      rw [h2, List.drop_append_of_le_length (by omega), List.drop_drop]
      have h3 : (l ++ [a]).length - 5 = l.length - 4 := by
        simp only [List.length_append, List.length_singleton]; omega
      rw [h3, List.drop_append_of_le_length (by omega)]
      congr 2
      omega

theorem lookup_setParam_self (ps : Params) (k : String) (v : JVal) :
    (setParam ps k v).lookup k = some v := by
  induction ps with
  | nil => simp [setParam]
  | cons p t ih =>
      rcases p with ⟨k₁, v₁⟩
      by_cases h : k₁ = k
      · simp [setParam, h]
      · have hb : (k₁ == k) = false := beq_eq_false_iff_ne.mpr h
        have hb2 : (k == k₁) = false := beq_eq_false_iff_ne.mpr (Ne.symm h)
        simp [setParam, hb, List.lookup, hb2, ih]

theorem lookup_setParam_ne (ps : Params) (k k₂ : String) (v : JVal)
    (h : k₂ ≠ k) : (setParam ps k v).lookup k₂ = ps.lookup k₂ := by
  have hb : (k₂ == k) = false := beq_eq_false_iff_ne.mpr h
  induction ps with
  | nil => simp [setParam, List.lookup, hb]
  | cons p t ih =>
      rcases p with ⟨k₁, v₁⟩
      by_cases h1 : k₁ = k
      · subst h1
        simp [setParam, List.lookup, hb]
      · have hb1 : (k₁ == k) = false := beq_eq_false_iff_ne.mpr h1
        simp [setParam, hb1, List.lookup, ih]

theorem clampKey_ok_self (ps ps' : Params) (k : String)
    (h : clampKey ps k = .ok ps') :
    ∀ n : Int, ps.lookup k = some (.num n) →
      ps'.lookup k = some (.num (max (-25) (min 25 n))) := by
  intro n hn
  unfold clampKey at h
  rw [hn] at h
  simp [clampVal, exceptBind_ok, exceptPure_eq] at h
  rw [← h]
  exact lookup_setParam_self ps k _

theorem clampKey_ok_ne (ps ps' : Params) (k k₂ : String)
    (h : clampKey ps k = .ok ps') (hne : k₂ ≠ k) :
    ps'.lookup k₂ = ps.lookup k₂ := by
  unfold clampKey at h
  cases hk : ps.lookup k with
  | none =>
      rw [hk, exceptPure_eq] at h
      injection h with h
      rw [h]
  | some v =>
      rw [hk] at h
      cases v with
      | num n =>
          simp [clampVal, exceptBind_ok, exceptPure_eq] at h
          rw [← h]
          exact lookup_setParam_ne ps k k₂ _ hne
      | str s => simp [clampVal, exceptBind_error] at h

theorem clampMove_lookup (ps ps' : Params) (h : clampMove ps = .ok ps') :
    (∀ nx : Int, ps.lookup "x" = some (.num nx) →
        ps'.lookup "x" = some (.num (max (-25) (min 25 nx)))) ∧
    (∀ ny : Int, ps.lookup "y" = some (.num ny) →
        ps'.lookup "y" = some (.num (max (-25) (min 25 ny)))) := by
  unfold clampMove at h
  cases h1 : clampKey ps "x" with
  | error e => rw [h1] at h; simp [exceptBind_error] at h
  | ok ps₁ =>
      rw [h1] at h
      rw [exceptBind_ok] at h
      constructor
      · intro nx hx
        have hx1 := clampKey_ok_self ps ps₁ "x" h1 nx hx
        have h2 := clampKey_ok_ne ps₁ ps' "y" "x" h (by decide)
        rw [h2, hx1]
      · intro ny hy
        have hy1 : ps₁.lookup "y" = some (.num ny) := by
          rw [clampKey_ok_ne ps ps₁ "x" "y" h1 (by decide)]
          exact hy
        exact clampKey_ok_self ps₁ ps' "y" h ny hy1

theorem game_step_fold_keys (gs : List String) (llm : String → LLMResult) :
    ∀ (registered : List String) (p : AgentsMap × List (String × StepResult)),
      ((registered.foldl
        (fun acc aid =>
          let r := process_single_agent_step acc.1 aid gs (llm aid)
          (r.1, acc.2 ++ [(aid, r.2)])) p).2).map Prod.fst
        = p.2.map Prod.fst ++ registered := by
  intro registered
  induction registered with
  | nil => intro p; simp
  | cons aid rest ih =>
      intro p
      rw [List.foldl_cons, ih]
      simp

theorem lookup_isSome_of_mem_fst (rs : List (String × StepResult)) (a : String)
    (h : a ∈ rs.map Prod.fst) : (rs.lookup a).isSome := by
  rw [List.lookup_isSome_iff]
  rcases List.mem_map.mp h with ⟨p, hp, he⟩
  exact ⟨p, hp, by simp [he]⟩

theorem all_agentConns_iff (blocks : List Block) :
    blocks.all agentConnsNonempty = true ↔ ¬ HasEmptyAgentBlock blocks := by
  rw [List.all_eq_true]
  constructor
  · rintro h ⟨g, hg, hconn⟩
    have hx := h _ hg
    simp [agentConnsNonempty, hconn] at hx
  · intro h b hb
    cases b with
    | agent g =>
        simp only [agentConnsNonempty, Bool.not_eq_true']
        cases hc : g.tool_connections with
        | nil => exact absurd ⟨g, hb, hc⟩ h
        | cons x xs => rfl
    | action a => rfl
    | tool t => rfl

theorem any_onStart_iff (blocks : List Block) :
    blocks.any (isActionOfType "onStart") = true ↔ HasOnStartEntry blocks := by
  rw [List.any_eq_true]
  constructor
  · rintro ⟨b, hb, hty⟩
    cases b with
    | action a => exact ⟨a, hb, by simpa [isActionOfType] using hty⟩
    | agent g => simp [isActionOfType] at hty
    | tool t => simp [isActionOfType] at hty
  · rintro ⟨a, ha, hty⟩
    exact ⟨.action a, ha, by simp [isActionOfType, hty]⟩

theorem refsValid_iff (ids : List String) (b : Block) :
    refsValid ids b = true ↔ ¬ BlockRefDefect ids b := by
  cases b with
  | action a =>
      by_cases ht : truthy a.next
      · simp [refsValid, BlockRefDefect, ht, List.contains_iff_exists_mem_beq]
      · simp [refsValid, BlockRefDefect, ht]
  | tool t =>
      by_cases ht : truthy t.next
      · simp [refsValid, BlockRefDefect, ht, List.contains_iff_exists_mem_beq]
      · simp [refsValid, BlockRefDefect, ht]
  | agent g =>
      simp [refsValid, BlockRefDefect, List.contains_iff_exists_mem_beq]

theorem validate_blocks_ok_iff_bools (blocks : List Block) :
    validate_blocks blocks = .ok () ↔
      (blocks.all agentConnsNonempty = true ∧ blocks.isEmpty = false ∧
       blocks.any (isActionOfType "onStart") = true ∧
       (blocks.map Block.id).Nodup ∧
       blocks.all (refsValid (blocks.map Block.id)) = true) := by
  unfold validate_blocks
  split_ifs with h1 h2 h3 h4 h5 <;> simp_all

theorem stepFromNode_ok_inv (st : AgentState) (nid : String)
    (llm : LLMResult) (st' : AgentState) (resp : NextStepResponse)
    (h : stepFromNode st nid llm = (st', .ok resp)) :
    ∃ (ab : AgentBlock) (tc : String) (ps : Params) (r : String)
      (conn : ToolConnection) (tb : Block) (nxt : Option String),
      findBlock st.program.blocks nid = some (.agent ab) ∧
      execute_agent_block ab llm = .ok (tc, ps, r) ∧
      ab.tool_connections.find? (fun c => c.tool_name == tc) = some conn ∧
      findBlock st.program.blocks conn.tool_id = some tb ∧
      tb.nextAttr = some nxt ∧
      resp = { agent_id := st.agent_id, action := some ⟨tc, ps⟩, current_node := nxt } ∧
      st' = { st with
        last_agent_block := some ab.id
        current_plan :=
          if tc == "plan" && (ps.lookup "plan").isSome then ps.lookup "plan"
          else st.current_plan
        past_actions := record_action st.past_actions ⟨tc, ps, r⟩
        last_executed_tool_block := some tb.id
        current_node := nxt } := by
  unfold stepFromNode at h
  repeat' split at h
  all_goals simp at h
  case isTrue =>
      rename_i x1 ab hfb x2 tc ps r hex x3 conn hfc hcond
      split at h
      · simp at h
      · rename_i tb hfb2
        split at h
        · simp at h
        · rename_i nxt hna
          simp only [Prod.mk.injEq, Except.ok.injEq] at h
          obtain ⟨h1, h2⟩ := h
          subst h1
          subst h2
          exact ⟨ab, tc, ps, r, conn, tb, nxt, hfb, hex, hfc, hfb2, hna, by simp,
            by simp [hcond]⟩
  case isFalse =>
      rename_i x1 ab hfb x2 tc ps r hex x3 conn hfc hcond
      split at h
      · simp at h
      · rename_i tb hfb2
        split at h
        · simp at h
        · rename_i nxt hna
          simp only [Prod.mk.injEq, Except.ok.injEq] at h
          obtain ⟨h1, h2⟩ := h
          subst h1
          subst h2
          exact ⟨ab, tc, ps, r, conn, tb, nxt, hfb, hex, hfc, hfb2, hna, by simp,
            by simp [hcond]⟩

theorem stepFromNode_ok_action_isSome (st : AgentState) (nid : String)
    (llm : LLMResult) (st' : AgentState) (resp : NextStepResponse)
    (h : stepFromNode st nid llm = (st', .ok resp)) : resp.action.isSome := by
  obtain ⟨ab, tc, ps, r, conn, tb, nxt, _, _, _, _, _, hresp, _⟩ :=
    stepFromNode_ok_inv st nid llm st' resp h
  rw [hresp]
  rfl

theorem applyTrigger_current_plan (st : AgentState) (act : Option String) :
    (applyTrigger st act).current_plan = st.current_plan := by
  unfold applyTrigger
  repeat' split
  all_goals rfl

theorem stepFromNode_plan_effect (st : AgentState) (nid : String) (llm : LLMResult)
    (st' : AgentState) (resp : NextStepResponse) (a : ToolAction)
    (h : stepFromNode st nid llm = (st', .ok resp)) (ha : resp.action = some a) :
    (a.tool_type = "plan" → ∀ v : JVal, a.parameters.lookup "plan" = some v →
        st'.current_plan = some v) ∧
    (a.tool_type = "plan" → a.parameters.lookup "plan" = none →
        st'.current_plan = st.current_plan) ∧
    (a.tool_type ≠ "plan" → st'.current_plan = st.current_plan) := by
  obtain ⟨ab, tc, ps, r, conn, tb, nxt, _, _, _, _, _, hresp, hst⟩ :=
    stepFromNode_ok_inv st nid llm st' resp h
  subst hst
  rw [hresp] at ha
  simp only [Option.some.injEq] at ha
  subst ha
  refine ⟨?_, ?_, ?_⟩
  · intro hp v hv
    simp only at hp hv
    simp [hp, hv]
  · intro hp hv
    simp only at hp hv
    simp [hp, hv]
  · intro hp
    simp only at hp
    have hb : (tc == "plan") = false := beq_eq_false_iff_ne.mpr hp
    simp [hb]

-- ===========================================================================
-- Claim theorems
-- ===========================================================================

/-- Claim C1, counterexample to the claim as stated: the provider reply is the
bare text "attack", which is not JSON, so parsing fails; the claim then
requires the first offered binding ("move"), but the code selects "attack"
(the lower-cased raw text, which happens to be an offered binding) with empty
parameters. -/
theorem claim_C1_counterexample :
    select_tool ["move", "attack"] exLLMAttackText
      = .ok ("attack", [], "Failed to parse response") ∧
    exLLMAttackText.parsed = none ∧ ("attack" : String) ≠ "move" := by
  exact ⟨by decide, rfl, by decide⟩

/-- Claim C1, amended: when JSON parsing fails the engine uses the stripped
lower-cased raw text as the tool choice with empty parameters; whenever the
resulting tool choice (parsed or raw-derived) is not among the offered tool
bindings, the engine selects the first offered binding with empty parameters;
in particular a decision block offering move and attack given the reply
containing action "fly" selects "move" with empty parameters. -/
theorem claim_C1_amended (llm : LLMResult) (t : String) (ts : List String)
    (tc : String) (ps : Params) (r : String) :
    (llm.parsed = none →
      parseStage llm = .ok (pyLower (pyStrip llm.raw), [], "Failed to parse response")) ∧
    (parseStage llm = .ok (tc, ps, r) → (t :: ts).contains tc = false →
      select_tool (t :: ts) llm = .ok (t, [], r)) ∧
    select_tool ["move", "attack"] exLLMFly = .ok ("move", [], "No reasoning provided") := by
  refine ⟨?_, ?_, by decide⟩
  · intro h
    simp [parseStage, h]
  · intro hp hc
    have hn : ¬ (tc = t ∨ tc ∈ ts) := by simpa using hc
    simp [select_tool, hp, exceptBind_ok, validateChoice, hn]

/-- Witness for C1: a non-JSON reply naming no offered tool falls back to the
first binding with empty parameters. -/
theorem claim_C1_amended_witness :
    select_tool ["move", "attack"] ⟨"fly", none⟩
      = .ok ("move", [], "Failed to parse response") := by
  have h := claim_C1_amended ⟨"fly", none⟩ "move" ["attack"] "fly" [] "Failed to parse response"
  exact h.2.1 (by decide) (by decide)

/-- Claim C2: for every provider response whose parsed action is "move" and
which picks an offered move binding, each numeric x and y parameter of the
returned parameter set is clamped to [-25, 25]; in particular a move reply of
x 999 and y -999 returns exactly x 25 and y -25. -/
theorem claim_C2_clamping (llm : LLMResult) (obj : ParsedResponse)
    (tools : List String) (tc r : String) (ps' : Params)
    (hp : llm.parsed = some obj)
    (ha : pyLower (obj.action.getD "") = "move")
    (hm : tools.contains "move" = true)
    (hok : select_tool tools llm = .ok (tc, ps', r)) :
    tc = "move" ∧
    (∀ nx : Int, (obj.parameters.getD []).lookup "x" = some (.num nx) →
       ps'.lookup "x" = some (.num (max (-25) (min 25 nx))) ∧
       -25 ≤ max (-25) (min 25 nx) ∧ max (-25) (min 25 nx) ≤ 25) ∧
    (∀ ny : Int, (obj.parameters.getD []).lookup "y" = some (.num ny) →
       ps'.lookup "y" = some (.num (max (-25) (min 25 ny)))) ∧
    select_tool ["move"] exLLMMove999
      = .ok ("move", [("x", .num 25), ("y", .num (-25))], "No reasoning provided") := by
  have hmem : "move" ∈ tools := by simpa [List.contains] using hm
  have hbound : ∀ n : Int, -25 ≤ max (-25) (min 25 n) ∧ max (-25) (min 25 n) ≤ 25 := by
    intro n
    exact ⟨le_max_left _ _, max_le (by norm_num) (min_le_left _ _)⟩
  unfold select_tool parseStage at hok
  rw [hp] at hok
  simp only [parseOk, ha, beq_self_eq_true, Bool.true_and] at hok
  by_cases hempty : (obj.parameters.getD []).isEmpty
  · have hps : obj.parameters.getD [] = [] := by
      simpa [List.isEmpty_iff] using hempty
    simp only [hempty, Bool.not_true, if_false] at hok
    simp [validateChoice, exceptBind_ok, hmem] at hok
    refine ⟨hok.1.symm, ?_, ?_, by decide⟩
    · intro nx hx
      rw [hps] at hx
      simp at hx
    · intro ny hy
      rw [hps] at hy
      simp at hy
  · simp only [hempty, Bool.not_false, if_true] at hok
    cases hcm : clampMove (obj.parameters.getD []) with
    | error e =>
        rw [hcm] at hok
        simp [Except.map, exceptBind_error] at hok
    | ok cps =>
        rw [hcm] at hok
        simp only [Except.map, exceptBind_ok] at hok
        simp [validateChoice, hmem] at hok
        obtain ⟨h1, h2, h3⟩ := hok
        have hcl := clampMove_lookup _ _ hcm
        refine ⟨h1.symm, ?_, ?_, by decide⟩
        · intro nx hx
          refine ⟨?_, hbound nx⟩
          rw [← h2]
          exact hcl.1 nx hx
        · intro ny hy
          rw [← h2]
          exact hcl.2 ny hy

/-- Witness for C2 at the literal 999 / -999 input. -/
theorem claim_C2_witness :
    [("x", JVal.num 25), ("y", JVal.num (-25))].lookup "x"
        = some (JVal.num (max (-25) (min 25 (999 : Int)))) ∧
    [("x", JVal.num 25), ("y", JVal.num (-25))].lookup "y"
        = some (JVal.num (max (-25) (min 25 (-999 : Int)))) := by
  have h := claim_C2_clamping exLLMMove999
    ⟨none, some "move", some [("x", .num 999), ("y", .num (-999))]⟩
    ["move"] "move" "No reasoning provided" [("x", JVal.num 25), ("y", JVal.num (-25))]
    rfl (by decide) (by decide) (by decide)
  exact ⟨(h.2.1 999 (by decide)).1, h.2.2.1 (-999) (by decide)⟩

/-- Claim C3: when the cursor is absent after trigger handling (also when the
trigger matched an entry block without a successor), the step falls back to
the last-entered decision block when one exists — the step then runs exactly
as if the cursor had been that block, and whenever it completes it produces
an action; when no last decision block exists either, the step returns no
action and a null cursor. -/
theorem claim_C3_cursor_fallback (st₀ : AgentState) (act : Option String)
    (llm : LLMResult) (hcur : truthy (applyTrigger st₀ act).current_node = false) :
    (∀ d : String, (applyTrigger st₀ act).last_agent_block = some d →
       truthy (some d) = true →
       (next_step_for_agents st₀ act llm
          = stepFromNode { applyTrigger st₀ act with current_node := some d } d llm ∧
        ∀ (st' : AgentState) (resp : NextStepResponse),
          stepFromNode { applyTrigger st₀ act with current_node := some d } d llm
            = (st', Except.ok resp) → resp.action.isSome)) ∧
    (truthy (applyTrigger st₀ act).last_agent_block = false →
      next_step_for_agents st₀ act llm
        = (applyTrigger st₀ act,
           .ok { agent_id := (applyTrigger st₀ act).agent_id, action := none,
                 current_node := none })) := by
  constructor
  · intro d hd htr
    constructor
    · unfold next_step_for_agents
      simp only [hcur, Bool.false_eq_true, if_false, hd, htr, if_true, Option.getD_some]
    · exact fun st' resp hh => stepFromNode_ok_action_isSome _ _ _ _ _ hh
  · intro hfalse
    unfold next_step_for_agents
    simp only [hcur, Bool.false_eq_true, if_false, hfalse]

/-- Witness for C3: idle cursor, an onAttacked trigger with no successor
wired, fallback to decision block D, and an action is still produced. -/
theorem claim_C3_witness :
    next_step_for_agents exStateIdle (some "attacked") exLLMMove
      = stepFromNode
          { applyTrigger exStateIdle (some "attacked") with current_node := some "D" }
          "D" exLLMMove ∧
    (next_step_for_agents exStateIdle (some "attacked") exLLMMove).2
      = .ok { agent_id := "agent1"
              action := some { tool_type := "move"
                               parameters := [("x", .num 5), ("y", .num (-10))] }
              current_node := some "D" } := by
  have h := claim_C3_cursor_fallback exStateIdle (some "attacked") exLLMMove (by decide)
  exact ⟨(h.1 "D" (by decide) (by decide)).1, by decide⟩

/-- Claim C4: program validation accepts exactly the programs with a
non-empty block set, an onStart entry, no duplicate ids, no dangling
successor or tool-binding reference and no decision block without tool
bindings; every defective program is rejected with a descriptive error. -/
theorem claim_C4_validation (blocks : List Block) :
    validate_blocks blocks = .ok () ↔
      (blocks ≠ [] ∧ HasOnStartEntry blocks ∧ (blocks.map Block.id).Nodup ∧
       ¬ HasDanglingRef blocks ∧ ¬ HasEmptyAgentBlock blocks) := by
  have hR : blocks.all (refsValid (blocks.map Block.id)) = true ↔
      ¬ HasDanglingRef blocks := by
    rw [List.all_eq_true]
    constructor
    · rintro h ⟨b, hb, hd⟩
      exact (refsValid_iff _ b).mp (h b hb) hd
    · intro h b hb
      exact (refsValid_iff _ b).mpr fun hd => h ⟨b, hb, hd⟩
  have hE : blocks.isEmpty = false ↔ blocks ≠ [] := by
    cases blocks <;> simp
  rw [validate_blocks_ok_iff_bools, all_agentConns_iff, hE, any_onStart_iff, hR]
  tauto

/-- Claim C5: the action history kept after any sequence of recorded actions
is exactly the last MAX_ACTION_HISTORY = 5 records in append order, hence
never more than 5. -/
theorem claim_C5_history (rs : List ActionRecord) :
    List.foldl record_action [] rs = rs.drop (rs.length - MAX_ACTION_HISTORY) ∧
    (List.foldl record_action [] rs).length ≤ MAX_ACTION_HISTORY := by
  refine ⟨foldl_record_action_eq rs, ?_⟩
  rw [foldl_record_action_eq rs, List.length_drop]
  simp only [MAX_ACTION_HISTORY]
  omega

/-- Claim C6: a batch tick report contains an entry (a result or an error)
for every registered agent. -/
theorem claim_C6_tick_report (agents : AgentsMap) (registered gs : List String)
    (llm : String → LLMResult) (aid : String) (h : aid ∈ registered) :
    (((execute_game_step agents registered gs llm).2).lookup aid).isSome := by
  apply lookup_isSome_of_mem_fst
  unfold execute_game_step
  rw [game_step_fold_keys]
  simpa using h

/-- Witness for C6 at a one-agent session. -/
theorem claim_C6_witness :
    (((execute_game_step [("agent1", exStateAtD)] ["agent1"] ["agent1"]
        (fun _ => exLLMMove)).2).lookup "agent1").isSome := by
  exact claim_C6_tick_report _ _ _ _ "agent1" (by decide)

/-- Claim C7: an auto-step iteration with a completed tick of duration d
sleeps max(0, stepDelay - d) and continues; an iteration whose tick raised
sleeps the full cadence interval and continues rather than terminating. -/
theorem claim_C7_cadence (stepDelay d : ℚ) (e : String) :
    auto_step_iteration stepDelay (.ok d) = (max 0 (stepDelay - d), true) ∧
    auto_step_iteration stepDelay (.error e) = (stepDelay, true) := by
  refine ⟨?_, rfl⟩
  simp only [auto_step_iteration]
  rcases le_or_lt (stepDelay - d) 0 with h | h
  · rw [if_neg (not_lt.mpr h), max_eq_left h]
  · rw [if_pos h, max_eq_right h.le]

/-- Claim C8: the MCP server set passed to the provider contains the plan
channel iff a plan binding is offered, the search channel iff a search
binding is offered, and nothing else. -/
theorem claim_C8_mcp (conns : List ToolConnection) :
    ("raptors65/hack-princeton-mcp" ∈ mcp_servers (conns.map (·.tool_name)) ↔
       ∃ c ∈ conns, c.tool_name = "plan") ∧
    ("tsion/brave-search-mcp" ∈ mcp_servers (conns.map (·.tool_name)) ↔
       ∃ c ∈ conns, c.tool_name = "search") ∧
    ∀ s ∈ mcp_servers (conns.map (·.tool_name)),
      s = "raptors65/hack-princeton-mcp" ∨ s = "tsion/brave-search-mcp" := by
  have hplan : ((conns.map (·.tool_name)).contains "plan" = true) ↔
      ∃ c ∈ conns, c.tool_name = "plan" := by
    simp [List.contains_iff_exists_mem_beq, eq_comm]
  have hsearch : ((conns.map (·.tool_name)).contains "search" = true) ↔
      ∃ c ∈ conns, c.tool_name = "search" := by
    simp [List.contains_iff_exists_mem_beq, eq_comm]
  refine ⟨?_, ?_, ?_⟩
  · rw [← hplan]
    by_cases hp : (conns.map (·.tool_name)).contains "plan" <;>
      by_cases hs : (conns.map (·.tool_name)).contains "search" <;>
        simp [mcp_servers, hp, hs]
  · rw [← hsearch]
    by_cases hp : (conns.map (·.tool_name)).contains "plan" <;>
      by_cases hs : (conns.map (·.tool_name)).contains "search" <;>
        simp [mcp_servers, hp, hs]
  · intro s hmem
    by_cases hp : (conns.map (·.tool_name)).contains "plan" <;>
      by_cases hs : (conns.map (·.tool_name)).contains "search" <;>
        simp [mcp_servers, hp, hs] at hmem <;> tauto

/-- Witness for C8: a plan binding yields the plan channel. -/
theorem claim_C8_witness :
    "raptors65/hack-princeton-mcp" ∈ mcp_servers ["plan"] :=
  (claim_C8_mcp [⟨"T9", "plan"⟩]).1.mpr ⟨⟨"T9", "plan"⟩, by decide, rfl⟩

/-- Claim C9, counterexample to the claim as stated: a completed step whose
selected toolKind is "plan" but whose parameters carry no "plan" entry (the
shape the fallback produces) leaves the current-plan field at its old value
instead of overwriting it. -/
theorem claim_C9_counterexample :
    (next_step_for_agents exStatePlan none exLLMPlanNoParam).2
      = .ok { agent_id := "agent9"
              action := some { tool_type := "plan", parameters := [] }
              current_node := none } ∧
    (next_step_for_agents exStatePlan none exLLMPlanNoParam).1.current_plan
      = some (.str "old strategy") ∧
    exStatePlan.current_plan = some (.str "old strategy") := by
  exact ⟨by decide, by decide, rfl⟩

/-- Claim C9, amended: a completed step that selects "plan" with a "plan"
parameter overwrites the current-plan field with that parameter; a completed
step that selects "plan" without a "plan" parameter, or any other tool,
leaves the field unchanged. -/
theorem claim_C9_plan_update (st₀ : AgentState) (act : Option String)
    (llm : LLMResult) (st' : AgentState) (resp : NextStepResponse) (a : ToolAction)
    (h : next_step_for_agents st₀ act llm = (st', .ok resp))
    (ha : resp.action = some a) :
    (a.tool_type = "plan" → ∀ v : JVal, a.parameters.lookup "plan" = some v →
        st'.current_plan = some v) ∧
    (a.tool_type = "plan" → a.parameters.lookup "plan" = none →
        st'.current_plan = st₀.current_plan) ∧
    (a.tool_type ≠ "plan" → st'.current_plan = st₀.current_plan) := by
  unfold next_step_for_agents at h
  split at h
  · have hx := stepFromNode_plan_effect _ _ _ _ _ a h ha
    simpa [applyTrigger_current_plan] using hx
  · split at h
    · have hx := stepFromNode_plan_effect _ _ _ _ _ a h ha
      simpa [applyTrigger_current_plan] using hx
    · simp only [Prod.mk.injEq, Except.ok.injEq] at h
      obtain ⟨h1, h2⟩ := h
      rw [← h2] at ha
      simp at ha

/-- Witness for C9: a plan step with a plan parameter stores the new plan. -/
theorem claim_C9_witness :
    (next_step_for_agents exStatePlan none exLLMPlanWithParam).1.current_plan
      = some (.str "new plan") := by
  have h := claim_C9_plan_update exStatePlan none exLLMPlanWithParam
      (next_step_for_agents exStatePlan none exLLMPlanWithParam).1
      { agent_id := "agent9"
        action := some { tool_type := "plan", parameters := [("plan", .str "new plan")] }
        current_node := none }
      { tool_type := "plan", parameters := [("plan", .str "new plan")] }
      (by decide) rfl
  exact h.1 rfl (.str "new plan") (by decide)

/-- Claim C10: an agent absent from the batched game-state map gets an error
entry, its run state is unchanged, and the outcome is independent of the
decision provider (no decision call is made). -/
theorem claim_C10_missing_state (agents : AgentsMap) (aid : String)
    (gs : List String) (h : gs.contains aid = false) :
    ∀ llm : LLMResult,
      process_single_agent_step agents aid gs llm
        = (agents, .err "No game state available") := by
  intro llm
  have hn : aid ∉ gs := by simpa [List.contains] using h
  simp [process_single_agent_step, hn]

/-- Witness for C10 with an empty game-state map. -/
theorem claim_C10_witness :
    process_single_agent_step [("agent1", exStateAtD)] "agent1" [] exLLMMove
      = ([("agent1", exStateAtD)], .err "No game state available") :=
  claim_C10_missing_state _ "agent1" [] (by decide) exLLMMove
